import Mathlib

/-!
Verification of the Hospital-Analysis dashboard pipeline (`app.py`).

The script is a linear pandas pipeline: load → `clean_dataframe` (type
coercion, null filling, date-row dropping, strict de-duplication by a
prioritized list of composite keys, static categorical mappings) →
profit computation under one of three formulas → date/branch filtering →
group-aggregate-sort-head metric views.

We embed the parts of that pipeline shallowly: tables are Lean lists of
rows, pandas column presence is an explicit `Col → Bool` map, numeric
cells are rationals, parsed dates are `Option Int` (with `none` for
values `pd.to_datetime(..., errors="coerce")` failed on).
-/

namespace HospitalAnalysis

/-- The columns that take part in the strict de-dup candidate keys of
`clean_dataframe` (`app.py` lines 113–117). -/
inductive Col
  | branch
  | postingDate
  | documentNo
  | lineNo
  | lineTotal
  | description
deriving DecidableEq, Repr

/-- `candidate_keys` from `app.py` lines 113–117, in the fixed priority
order of the source. -/
def candidate_keys : List (List Col) :=
  [[Col.branch, Col.postingDate, Col.documentNo, Col.lineNo, Col.lineTotal],
   [Col.branch, Col.postingDate, Col.documentNo, Col.description, Col.lineTotal],
   [Col.branch, Col.postingDate, Col.description, Col.lineTotal]]

section DedupDefs

variable {ρ κ : Type} [DecidableEq κ]

/-- Projection of a row onto a composite key: the tuple
`df[ks].loc[row]` that `df.duplicated(subset=ks)` compares. `val r c` is
the cell of row `r` in column `c`. -/
def keyProj (val : ρ → Col → κ) (ks : List Col) (r : ρ) : List κ :=
  ks.map (val r)

/-- Number of rows of `rows` whose key projection equals `p`. -/
def countProj (val : ρ → Col → κ) (ks : List Col) (rows : List ρ) (p : List κ) : Nat :=
  (rows.filter (fun r => decide (keyProj val ks r = p))).length

/-- `int(df.duplicated(subset=ks, keep=False).sum())` (`app.py` lines
124–125): the number of rows that belong to some duplicate group under
key `ks`. -/
def dupCount (val : ρ → Col → κ) (ks : List Col) (rows : List ρ) : Nat :=
  (rows.filter (fun r => decide (2 ≤ countProj val ks rows (keyProj val ks r)))).length

/-- Helper for `drop_duplicates`: keep a row iff its key projection has
not been seen on an earlier row (pandas `keep="first"` semantics). -/
def dropDupAux (val : ρ → Col → κ) (ks : List Col) : List ρ → List (List κ) → List ρ
  | [], _ => []
  | r :: rs, seen =>
    if keyProj val ks r ∈ seen then dropDupAux val ks rs seen
    else r :: dropDupAux val ks rs (keyProj val ks r :: seen)

/-- `df.drop_duplicates(subset=ks)` (`app.py` line 127): keep the first
row of each duplicate group under key `ks`. -/
def drop_duplicates (val : ρ → Col → κ) (ks : List Col) (rows : List ρ) : List ρ :=
  dropDupAux val ks rows []

/-- The `for ks in candidate_keys` loop of `app.py` lines 121–129:
restrict each key to the columns present, skip it when fewer than 3
remain, de-duplicate and stop at the first restricted key that finds
duplicate rows. Returns the surviving rows and the `used_key`. -/
def dedupLoop (present : Col → Bool) (val : ρ → Col → κ) (rows : List ρ) :
    List (List Col) → List ρ × Option (List Col)
  | [] => (rows, none)
  | ks :: rest =>
    let ks' := ks.filter present
    if 3 ≤ ks'.length then
      if 0 < dupCount val ks' rows then (drop_duplicates val ks' rows, some ks')
      else dedupLoop present val rows rest
    else dedupLoop present val rows rest

/-- The whole strict de-dup pass (`app.py` lines 118–129) applied to the
fixed `candidate_keys`. -/
def strict_dedup (present : Col → Bool) (val : ρ → Col → κ) (rows : List ρ) :
    List ρ × Option (List Col) :=
  dedupLoop present val rows candidate_keys

/-- The first candidate key (restricted to the present columns) that has
at least 3 columns present and finds duplicate rows — the key the loop
actually uses. -/
def firstDupKey (present : Col → Bool) (val : ρ → Col → κ) (rows : List ρ) :
    List (List Col) → Option (List Col)
  | [] => none
  | ks :: rest =>
    let ks' := ks.filter present
    if 3 ≤ ks'.length then
      if 0 < dupCount val ks' rows then some ks'
      else firstDupKey present val rows rest
    else firstDupKey present val rows rest

end DedupDefs

/-- A row of a table owning a Posting Date column, as it stands right
before `app.py` line 66: `postingDate` is the result of
`pd.to_datetime(..., errors="coerce")` (so `none` when the date failed
to parse), `keyVals` are the cells of the other de-dup key columns. -/
structure DRow where
  postingDate : Option Int
  keyVals : Col → Int

/-- Cell valuation of a `DRow` for the de-dup keys: the Posting Date key
column compares the parsed date, the others compare `keyVals`. -/
def dval (r : DRow) : Col → Option Int ⊕ Int
  | Col.postingDate => Sum.inl r.postingDate
  | c => Sum.inr (r.keyVals c)

/-- The row-dropping part of `clean_dataframe` (`app.py` lines 66–67 and
118–129) for a table with a Posting Date column: drop the rows whose
date failed to parse, then (when `strictDedup`) run the strict de-dup
pass. Column renames, numeric coercion/filling and the derived columns
neither add nor remove rows and are modelled separately. -/
def clean_dataframe (strictDedup : Bool) (present : Col → Bool) (rows : List DRow) :
    List DRow :=
  if strictDedup then
    (strict_dedup present dval (rows.filter (fun r => r.postingDate.isSome))).1
  else rows.filter (fun r => r.postingDate.isSome)

/-- The three entries of the `st.selectbox` at `app.py` lines 147–155. -/
inductive ProfitFormula
  | perUnit
  | current
  | fixed40
deriving DecidableEq, Repr

/-- The `Profit` column computation (`app.py` lines 158–166).
`hasAvgCost` / `hasQuantity` record whether the `avg_cost` / `Quantity`
columns exist; when a column is absent its argument is ignored, exactly
as the source never reads it. Numbers are rationals, with the literal
`0.40` embedded as `40/100`. -/
def computeProfit (f : ProfitFormula) (hasAvgCost hasQuantity : Bool)
    (lineTotal avgCost quantity : ℚ) : ℚ :=
  match f with
  | ProfitFormula.perUnit =>
    if hasAvgCost && hasQuantity then lineTotal - avgCost * quantity else 0
  | ProfitFormula.current =>
    lineTotal - (if hasAvgCost then avgCost else 0)
  | ProfitFormula.fixed40 => lineTotal * (40 / 100)

/-- The static `gender_mapping` dict of `app.py` line 72, as the partial
map `pd.Series.map` applies. -/
def gender_mapping (s : String) : Option String :=
  if s = "M" then some "Male"
  else if s = "F" then some "Female"
  else if s = "W" then some "Female"
  else if s = "ชาย" then some "Male"
  else if s = "หญิง" then some "Female"
  else none

/-- `df["เพศ คนไข้"].map(gender_mapping).fillna("Other")` (`app.py`
line 74). -/
def gender_mapped (s : String) : String :=
  (gender_mapping s).getD "Other"

/-- `pd.to_numeric(..., errors="coerce").fillna(0)` on the `age` column
(`app.py` lines 52–54 and 61–63): an unparseable or missing age becomes
`0`. -/
def fill_age (a : Option ℚ) : ℚ :=
  a.getD 0

/-- `pd.cut(df["age"], bins=[0,17,35,55,200], labels=[...], right=True)`
(`app.py` lines 76–79): half-open-on-the-left intervals, `none` when the
age falls in no bin. -/
def age_group (a : ℚ) : Option String :=
  if 0 < a ∧ a ≤ 17 then some "0–17"
  else if 17 < a ∧ a ≤ 35 then some "18–35"
  else if 35 < a ∧ a ≤ 55 then some "36–55"
  else if 55 < a ∧ a ≤ 200 then some "56+"
  else none

/-- A row of the cleaned frame `df` as the filter and the metric views
see it (`app.py` lines 168–184 onward): date non-null (an `Int` day
number), strings for the categorical columns, rationals for the numeric
ones. -/
structure MRow where
  postingDate : Int
  branch : String
  payer : String
  diseaseGroup : String
  age : ℚ
  lineTotal : ℚ
  profit : ℚ

/-- The date-range predicate of `app.py` lines 181–182
(`start_date <= Posting Date <= end_date`) applied alone. -/
def dateFilter (s e : Int) (rows : List MRow) : List MRow :=
  rows.filter (fun r => decide (s ≤ r.postingDate) && decide (r.postingDate ≤ e))

/-- `df[df["Branch"].isin(selected_branches)]` — the branch-membership
predicate of `app.py` line 183 applied alone. -/
def branchFilter (sel : List String) (rows : List MRow) : List MRow :=
  rows.filter (fun r => decide (r.branch ∈ sel))

/-- `df_filtered` (`app.py` lines 180–184): both predicates at once. -/
def df_filtered (s e : Int) (sel : List String) (rows : List MRow) : List MRow :=
  rows.filter (fun r =>
    decide (s ≤ r.postingDate) && decide (r.postingDate ≤ e) && decide (r.branch ∈ sel))

/-- Outcome of the script after `df_filtered` is built: either the
`st.warning`/`st.stop` empty-state halt (`app.py` lines 186–188), or the
dashboard tabs render. A raised exception is a distinct outcome the
post-filter code never produces. -/
inductive RunOutcome
  | haltedEmptyWarning
  | renderedDashboard
  | raisedError
deriving DecidableEq, Repr

/-- `if df_filtered.empty: st.warning(...); st.stop()` (`app.py` lines
186–188). -/
def render_after_filter (dfF : List MRow) : RunOutcome :=
  if dfF.isEmpty then RunOutcome.haltedEmptyWarning else RunOutcome.renderedDashboard

/-- Number of downstream views an outcome renders: `st.stop()` renders
none; otherwise the Business and Medical tabs render. -/
def viewsRendered : RunOutcome → Nat
  | RunOutcome.haltedEmptyWarning => 0
  | RunOutcome.renderedDashboard => 2
  | RunOutcome.raisedError => 0

section SortHeadDefs

variable {α : Type}

/-- Insert into a list sorted by the Boolean comparator `le`. -/
def insertBy (le : α → α → Bool) (a : α) : List α → List α
  | [] => [a]
  | b :: bs => if le a b then a :: b :: bs else b :: insertBy le a bs

/-- `sort_values(...)`: a stable insertion sort by the comparator. -/
def sortBy (le : α → α → Bool) : List α → List α
  | [] => []
  | a :: as => insertBy le a (sortBy le as)

end SortHeadDefs

/-- The distinct `Branch` values of the filtered frame — the index of
`df_filtered.groupby("Branch")`. -/
def branchGroups (rows : List MRow) : List String :=
  (rows.map (fun r => r.branch)).dedup

/-- `df_filtered.groupby("Branch")[["LineTotal","Profit"]].sum()`
(`app.py` line 235): one `(branch, LineTotal sum, Profit sum)` row per
distinct branch. -/
def branch_group_sum (rows : List MRow) : List (String × ℚ × ℚ) :=
  (branchGroups rows).map (fun b =>
    (b, ((rows.filter (fun r => decide (r.branch = b))).map (fun r => r.lineTotal)).sum,
        ((rows.filter (fun r => decide (r.branch = b))).map (fun r => r.profit)).sum))

/-- `top5` (`app.py` lines 234–239): group by branch, sort by revenue
descending, keep the head of 5. -/
def top5_branches (rows : List MRow) : List (String × ℚ × ℚ) :=
  (sortBy (fun a b => decide (b.2.1 ≤ a.2.1)) (branch_group_sum rows)).take 5

/-- The distinct `disease_group_mapped` values of the filtered frame. -/
def diseaseGroups (rows : List MRow) : List String :=
  (rows.map (fun r => r.diseaseGroup)).dedup

/-- `dis_age` (`app.py` lines 293–297): per disease group, the mean age
and the case count, sorted by cases then average age, descending. -/
def disease_agg (rows : List MRow) : List (String × ℚ × Nat) :=
  (diseaseGroups rows).map (fun d =>
    let grp := rows.filter (fun r => decide (r.diseaseGroup = d))
    (d, (grp.map (fun r => r.age)).sum / (grp.length : ℚ), grp.length))

/-- `dis_age.head(top_n)` (`app.py` line 299), for a slider value `n`. -/
def disease_topN (n : Nat) (rows : List MRow) : List (String × ℚ × Nat) :=
  (sortBy (fun a b =>
      decide (b.2.2 < a.2.2) || (decide (a.2.2 = b.2.2) && decide (b.2.1 ≤ a.2.1)))
    (disease_agg rows)).take n

/-- The distinct `Customer/Vendor Name` values of the filtered frame. -/
def payerGroups (rows : List MRow) : List String :=
  (rows.map (fun r => r.payer)).dedup

/-- `payer_agg` (`app.py` lines 327–335): per payer, revenue sum, profit
sum and case count, sorted by revenue descending. -/
def payer_agg (rows : List MRow) : List (String × ℚ × ℚ × Nat) :=
  (payerGroups rows).map (fun p =>
    let grp := rows.filter (fun r => decide (r.payer = p))
    (p, (grp.map (fun r => r.lineTotal)).sum, (grp.map (fun r => r.profit)).sum, grp.length))

/-- `payer_show = payer_agg.head(top_payer_n)` (`app.py` lines 339–340). -/
def payer_topN (n : Nat) (rows : List MRow) : List (String × ℚ × ℚ × Nat) :=
  (sortBy (fun a b => decide (b.2.1 ≤ a.2.1)) (payer_agg rows)).take n

/-- A table in which every candidate-key column is present. -/
def allCols : Col → Bool := fun _ => true

/-- Cell valuation for rows given directly as functions on columns. -/
def rowValZ (r : Col → Int) (c : Col) : Int := r c

/-- Example row: every cell `0`. -/
def exRowA : Col → Int := fun _ => 0

/-- Example row: like `exRowA` but with `Line No` equal to `1`. -/
def exRowB : Col → Int :=
  fun c => match c with
  | Col.lineNo => 1
  | _ => 0

/-- `exRowA` as a `DRow` with a successfully parsed date. -/
def dRowA : DRow := { postingDate := some 0, keyVals := fun _ => 0 }

/-- `exRowB` as a `DRow` with a successfully parsed date. -/
def dRowB : DRow :=
  { postingDate := some 0,
    keyVals := fun c => match c with
      | Col.lineNo => 1
      | _ => 0 }

/-- A one-row witness table with a successfully parsed date. -/
def dRowW : DRow := { postingDate := some 5, keyVals := fun _ => 0 }

/-! ## Helper lemmas -/

section DedupLemmas

variable {ρ κ : Type} [DecidableEq κ]

theorem dedupLoop_eq_firstDupKey (present : Col → Bool) (val : ρ → Col → κ)
    (rows : List ρ) (keys : List (List Col)) :
    dedupLoop present val rows keys =
      match firstDupKey present val rows keys with
      | none => (rows, none)
      | some k => (drop_duplicates val k rows, some k) := by
  induction keys with
  | nil => rfl
  | cons ks rest ih =>
    simp only [dedupLoop, firstDupKey]
    by_cases h3 : 3 ≤ (ks.filter present).length
    · by_cases hd : 0 < dupCount val (ks.filter present) rows
      · simp [h3, hd]
      · simp [h3, hd, ih]
    · simp [h3, ih]

theorem mem_dropDupAux (val : ρ → Col → κ) (ks : List Col) (r : ρ) :
    ∀ (l : List ρ) (seen : List (List κ)), r ∈ dropDupAux val ks l seen → r ∈ l := by
  intro l
  induction l with
  | nil => intro seen h; exact absurd h (List.not_mem_nil r)
  | cons a l' ih =>
    intro seen h
    simp only [dropDupAux] at h
    by_cases hs : keyProj val ks a ∈ seen
    · simp only [hs, if_pos] at h
      exact List.mem_cons_of_mem a (ih _ h)
    · simp only [hs, if_neg, not_false_iff] at h
      rcases List.mem_cons.mp h with h1 | h2
      · exact h1 ▸ List.mem_cons_self a l'
      · exact List.mem_cons_of_mem a (ih _ h2)

theorem mem_drop_duplicates (val : ρ → Col → κ) (ks : List Col) (r : ρ)
    (rows : List ρ) (h : r ∈ drop_duplicates val ks rows) : r ∈ rows :=
  mem_dropDupAux val ks r rows [] h

theorem mem_dedupLoop (present : Col → Bool) (val : ρ → Col → κ) (r : ρ)
    (rows : List ρ) (keys : List (List Col))
    (h : r ∈ (dedupLoop present val rows keys).1) : r ∈ rows := by
  induction keys with
  | nil => exact h
  | cons ks rest ih =>
    simp only [dedupLoop] at h
    by_cases h3 : 3 ≤ (ks.filter present).length
    · by_cases hd : 0 < dupCount val (ks.filter present) rows
      · simp only [h3, hd, if_pos] at h
        exact mem_drop_duplicates val _ r rows h
      · simp only [h3, hd, if_pos, if_neg, not_false_iff] at h
        exact ih h
    · simp only [h3, if_neg, not_false_iff] at h
      exact ih h

theorem dropDupAux_idem (val : ρ → Col → κ) (ks : List Col) :
    ∀ (l : List ρ) (seen : List (List κ)),
      dropDupAux val ks (dropDupAux val ks l seen) seen = dropDupAux val ks l seen := by
  intro l
  induction l with
  | nil => intro seen; rfl
  | cons a l' ih =>
    intro seen
    by_cases hs : keyProj val ks a ∈ seen
    · simp only [dropDupAux, hs, if_pos]
      exact ih seen
    · simp only [dropDupAux, hs, if_neg, not_false_iff, if_pos]
      rw [ih (keyProj val ks a :: seen)]

theorem drop_duplicates_idem (val : ρ → Col → κ) (ks : List Col) (rows : List ρ) :
    drop_duplicates val ks (drop_duplicates val ks rows) = drop_duplicates val ks rows :=
  dropDupAux_idem val ks rows []

end DedupLemmas

theorem postingDate_isSome_of_mem_clean (sd : Bool) (present : Col → Bool)
    (rows : List DRow) (r : DRow) (h : r ∈ clean_dataframe sd present rows) :
    r.postingDate.isSome = true := by
  have hmem : r ∈ rows.filter (fun r => r.postingDate.isSome) := by
    by_cases hsd : sd = true
    · rw [clean_dataframe, if_pos hsd] at h
      exact mem_dedupLoop present dval r _ candidate_keys h
    · rw [clean_dataframe, if_neg hsd] at h
      exact h
  exact (List.mem_filter.mp hmem).2

section FilterLemmas

variable {α : Type}

theorem filter_ext (p q : α → Bool) (h : ∀ a, p a = q a) (l : List α) :
    l.filter p = l.filter q := by
  induction l with
  | nil => rfl
  | cons a t ih => simp [List.filter_cons, h a, ih]

theorem filter_and (p q : α → Bool) (l : List α) :
    (l.filter p).filter q = l.filter (fun a => p a && q a) := by
  induction l with
  | nil => rfl
  | cons a t ih =>
    cases hp : p a <;> cases hq : q a <;>
      simp [List.filter_cons, hp, hq, ih]

theorem filter_idem (p : α → Bool) (l : List α) :
    (l.filter p).filter p = l.filter p := by
  rw [filter_and]
  exact filter_ext _ _ (fun a => Bool.and_self (p a)) l

theorem length_insertBy (le : α → α → Bool) (a : α) (l : List α) :
    (insertBy le a l).length = l.length + 1 := by
  induction l with
  | nil => rfl
  | cons b bs ih =>
    simp only [insertBy]
    by_cases h : le a b
    · simp [h]
    · simp [h, ih]

theorem length_sortBy (le : α → α → Bool) (l : List α) :
    (sortBy le l).length = l.length := by
  induction l with
  | nil => rfl
  | cons a as ih => simp [sortBy, length_insertBy, ih]

end FilterLemmas

/-! ## Claims -/

/-- C1 (counterexample): the de-dup loop does consult later keys. On the
two-row table `[exRowA, exRowB]` every column is present, the first
candidate key keeps all 5 of its columns and finds zero duplicate rows —
yet the pass uses the second candidate key and drops a row, so the claim
that no later key is consulted once a key with ≥3 present columns exists
is false. -/
theorem C1_first_key_counterexample :
    3 ≤ ((candidate_keys.headD []).filter allCols).length ∧
    dupCount rowValZ ((candidate_keys.headD []).filter allCols) [exRowA, exRowB] = 0 ∧
    (strict_dedup allCols rowValZ [exRowA, exRowB]).2 =
      some [Col.branch, Col.postingDate, Col.documentNo, Col.description, Col.lineTotal] ∧
    ((strict_dedup allCols rowValZ [exRowA, exRowB]).1).length = 1 := by
  decide

/-- C1 (amended): the strict de-dup pass uses the first candidate key,
in the fixed priority order, whose restriction to the present columns
both has at least 3 columns and finds duplicate rows; duplicates are
dropped under that key iff such a key exists, and a key with ≥3 present
columns that finds zero duplicates is skipped in favour of later keys. -/
theorem C1_dedup_uses_first_duplicate_finding_key {ρ κ : Type} [DecidableEq κ]
    (present : Col → Bool) (val : ρ → Col → κ) (rows : List ρ) :
    strict_dedup present val rows =
      match firstDupKey present val rows candidate_keys with
      | none => (rows, none)
      | some k => (drop_duplicates val k rows, some k) :=
  dedupLoop_eq_firstDupKey present val rows candidate_keys

/-- C2: on the spec's fixture `LineTotal = 100, avg_cost = 20,
Quantity = 2` the Per-Unit formula yields 60, the Current formula 80 and
the Fixed-40% formula 40 (`app.py` lines 158–166). -/
theorem C2_profit_formula_fixture :
    computeProfit ProfitFormula.perUnit true true 100 20 2 = 60 ∧
    computeProfit ProfitFormula.current true true 100 20 2 = 80 ∧
    computeProfit ProfitFormula.fixed40 true true 100 20 2 = 40 := by
  refine ⟨?_, ?_, ?_⟩ <;> norm_num [computeProfit]

/-- C3: every row of the table returned by `clean_dataframe` (for a
table with a Posting Date column) has a successfully parsed, non-null
Posting Date — rows whose date failed to parse were removed at `app.py`
lines 66–67 and the later de-dup step only removes rows. -/
theorem C3_cleaned_rows_have_date (sd : Bool) (present : Col → Bool)
    (rows : List DRow) (r : DRow) (h : r ∈ clean_dataframe sd present rows) :
    r.postingDate.isSome = true :=
  postingDate_isSome_of_mem_clean sd present rows r h

/-- C3 witness: the one-row table `[dRowW]` survives cleaning and its
date is non-null. -/
theorem C3_cleaned_rows_have_date_witness :
    dRowW ∈ clean_dataframe true allCols [dRowW] ∧ dRowW.postingDate.isSome = true := by
  have h : dRowW ∈ clean_dataframe true allCols [dRowW] := by
    show dRowW ∈ [dRowW]
    exact List.mem_singleton_self dRowW
  exact ⟨h, C3_cleaned_rows_have_date true allCols [dRowW] dRowW h⟩

/-- C4 (counterexample): the cleaner's duplicate removal is not
idempotent. On `[dRowA, dRowA, dRowB]` (all columns present) the first
pass drops one row under the first candidate key, leaving 2 rows; a
second pass over that output finds fresh duplicates under the second
candidate key and drops another row, leaving 1. -/
theorem C4_idempotence_counterexample :
    (clean_dataframe true allCols [dRowA, dRowA, dRowB]).length = 2 ∧
    (clean_dataframe true allCols
        (clean_dataframe true allCols [dRowA, dRowA, dRowB])).length = 1 := by
  decide

/-- C4 (amended): duplicate removal under any single fixed key is
idempotent — dropping duplicates by the same key twice equals dropping
once — and re-running the date-row drop on cleaned data drops nothing;
the non-idempotence of the full pass comes only from a second run
selecting a later candidate key. -/
theorem C4_dedup_idempotent_per_key {ρ κ : Type} [DecidableEq κ]
    (val : ρ → Col → κ) (ks : List Col) (l : List ρ)
    (sd : Bool) (present : Col → Bool) (rows : List DRow) :
    drop_duplicates val ks (drop_duplicates val ks l) = drop_duplicates val ks l ∧
    clean_dataframe false present (clean_dataframe sd present rows) =
      clean_dataframe sd present rows := by
  refine ⟨drop_duplicates_idem val ks l, ?_⟩
  show List.filter _ _ = _
  exact List.filter_eq_self.mpr
    (fun r hr => postingDate_isSome_of_mem_clean sd present rows r hr)

/-- C5: the date-range and branch-membership predicates of `app.py`
lines 180–184 commute, compose to `df_filtered`, and are idempotent. -/
theorem C5_filter_comm_idem (s e : Int) (sel : List String) (rows : List MRow) :
    dateFilter s e (branchFilter sel rows) = branchFilter sel (dateFilter s e rows) ∧
    branchFilter sel (dateFilter s e rows) = df_filtered s e sel rows ∧
    dateFilter s e (dateFilter s e rows) = dateFilter s e rows ∧
    branchFilter sel (branchFilter sel rows) = branchFilter sel rows := by
  refine ⟨?_, ?_, ?_, ?_⟩
  · simp only [dateFilter, branchFilter, filter_and]
    exact filter_ext _ _ (fun a => Bool.and_comm _ _) rows
  · simp only [dateFilter, branchFilter, df_filtered, filter_and]
  · simp only [dateFilter]
    exact filter_idem _ rows
  · simp only [branchFilter]
    exact filter_idem _ rows

/-- C6: the gender mapping of `app.py` lines 72–74 sends `"ชาย"` to
`"Male"`, `"W"` to `"Female"`, and any code outside the static
dictionary to `"Other"`. -/
theorem C6_gender_mapping_spec :
    gender_mapped "ชาย" = "Male" ∧ gender_mapped "W" = "Female" ∧
    ∀ s : String, s ∉ ["M", "F", "W", "ชาย", "หญิง"] → gender_mapped s = "Other" := by
  refine ⟨rfl, rfl, ?_⟩
  intro s hs
  simp only [List.mem_cons, List.not_mem_nil, or_false, not_or] at hs
  obtain ⟨h1, h2, h3, h4, h5⟩ := hs
  simp [gender_mapped, gender_mapping, h1, h2, h3, h4, h5]

/-- C6 witness: the unmapped code `"X"` maps to `"Other"`. -/
theorem C6_gender_mapping_spec_witness :
    "X" ∉ ["M", "F", "W", "ชาย", "หญิง"] ∧ gender_mapped "X" = "Other" :=
  ⟨by decide, C6_gender_mapping_spec.2.2 "X" (by decide)⟩

/-- C7: when the filtered view is empty the run halts in the
`st.warning`/`st.stop` empty state of `app.py` lines 186–188, renders
zero downstream views, and this outcome is never the raised-error
outcome. -/
theorem C7_empty_filter_halts (s e : Int) (sel : List String) (rows : List MRow)
    (h : df_filtered s e sel rows = []) :
    render_after_filter (df_filtered s e sel rows) = RunOutcome.haltedEmptyWarning ∧
    viewsRendered (render_after_filter (df_filtered s e sel rows)) = 0 ∧
    ∀ d : List MRow, render_after_filter d ≠ RunOutcome.raisedError := by
  refine ⟨?_, ?_, ?_⟩
  · simp [render_after_filter, h]
  · simp [render_after_filter, h, viewsRendered]
  · intro d
    unfold render_after_filter
    split <;> simp

/-- C7 witness: an empty source table filters to the empty view and the
run halts in the empty-warning state. -/
theorem C7_empty_filter_halts_witness :
    df_filtered 0 0 [] [] = ([] : List MRow) ∧
    render_after_filter (df_filtered 0 0 [] []) = RunOutcome.haltedEmptyWarning :=
  ⟨rfl, (C7_empty_filter_halts 0 0 [] [] rfl).1⟩

/-- C8: each top-N view returns exactly `min N (number of groups)` rows:
the top-5 branch table, the slider-bounded disease view, and the
slider-bounded payer view. -/
theorem C8_topN_lengths (rows : List MRow) (n : Nat) :
    (top5_branches rows).length = min 5 (branchGroups rows).length ∧
    (disease_topN n rows).length = min n (diseaseGroups rows).length ∧
    (payer_topN n rows).length = min n (payerGroups rows).length := by
  refine ⟨?_, ?_, ?_⟩ <;>
    simp [top5_branches, disease_topN, payer_topN, length_sortBy,
      branch_group_sum, disease_agg, payer_agg, List.length_take]

/-- C9: the age bins `(0,17], (17,35], (35,55], (55,200]` of `app.py`
lines 76–79 exclude 0 on the left, so an age of 0 — including every
missing or non-numeric age, which `fillna(0)` turns into 0 — and any
age above 200 receive no `age_group` bucket instead of falling into
`"0–17"`. -/
theorem C9_age_zero_and_over200_unbinned :
    age_group (fill_age none) = none ∧
    age_group 0 = none ∧
    ∀ a : ℚ, 200 < a → age_group a = none := by
  refine ⟨by norm_num [age_group, fill_age], by norm_num [age_group], ?_⟩
  intro a ha
  have h17 : ¬(a ≤ 17) := by linarith
  have h35 : ¬(a ≤ 35) := by linarith
  have h55 : ¬(a ≤ 55) := by linarith
  have h200 : ¬(a ≤ 200) := by linarith
  simp [age_group, h17, h35, h55, h200]

/-- C9 witness: age 201 exceeds 200 and gets no bucket. -/
theorem C9_age_zero_and_over200_unbinned_witness :
    (200 : ℚ) < 201 ∧ age_group 201 = none :=
  ⟨by norm_num, C9_age_zero_and_over200_unbinned.2.2 201 (by norm_num)⟩

/-- C10: profit never fails on missing cost columns (`app.py` lines
158–166): with the Per-Unit formula and `avg_cost` or `Quantity`
absent, profit is 0; with the Current formula and `avg_cost` absent,
profit equals the line total; the Fixed-40% formula gives
`LineTotal × 0.40` whatever columns exist. -/
theorem C10_profit_missing_columns :
    (∀ lt ac q : ℚ,
        computeProfit ProfitFormula.perUnit false true lt ac q = 0 ∧
        computeProfit ProfitFormula.perUnit true false lt ac q = 0 ∧
        computeProfit ProfitFormula.perUnit false false lt ac q = 0) ∧
    (∀ lt ac q : ℚ,
        computeProfit ProfitFormula.current false true lt ac q = lt ∧
        computeProfit ProfitFormula.current false false lt ac q = lt) ∧
    (∀ hac hq : Bool, ∀ lt ac q : ℚ,
        computeProfit ProfitFormula.fixed40 hac hq lt ac q = lt * (40 / 100)) := by
  refine ⟨?_, ?_, ?_⟩ <;> intros <;> simp [computeProfit]

end HospitalAnalysis
